import Mathlib

/-!
Verification of the torrent-streamer scraping and ingestion pipeline.

Shallow embedding of the scraping utilities (cloudflare-worker/src/utils/helpers.js),
the HTTP client retry loop (cloudflare-worker/src/utils/http-client.js), the scraper
normalization step (cloudflare-worker/src/scrapers/base-scraper.js), the batch
ingestion endpoint and its upsert processing, and the KV cache client (src/lib/db/kv.ts).
JavaScript strings are modelled as Lean strings (ASCII behaviour), JS numbers on the
exercised integral/rational values as Int/Rat, and `x || y` / truthiness on strings via
Option String where `none` stands for a missing or empty value.
-/

namespace TorrentStreamer

/-! ### JS string primitives -/

/-- JS whitespace characters relevant to `\s`, `trim` (ASCII range). -/
def isJsSpace (c : Char) : Bool :=
  c = ' ' || c = '\t' || c = '\n' || c = '\r' || c = '\x0b' || c = '\x0c'

/-- `String.prototype.trim` on a character list. -/
def trimChars (cs : List Char) : List Char :=
  ((cs.dropWhile isJsSpace).reverse.dropWhile isJsSpace).reverse

/-- Model of `x || null` for a JS string field: empty and missing collapse to `none`. -/
def strTruthy (o : Option String) : Option String :=
  match o with
  | some s => if s = "" then none else some s
  | none => none

/-- ASCII lowercase of a string (JS `toLowerCase` on the ASCII titles handled here). -/
def jsToLower (s : String) : String :=
  String.mk (s.toList.map Char.toLower)

/-- `needle` occurs as a contiguous run inside the list (JS `String.prototype.includes`). -/
def containsRun (needle : List Char) : List Char → Bool
  | [] => needle.isEmpty
  | c :: rest => needle.isPrefixOf (c :: rest) || containsRun needle rest

/-- JS `hay.includes(sub)`. -/
def strIncludes (hay sub : String) : Bool :=
  containsRun sub.toList hay.toList

/-! ### helpers.js : parseFileSize -/

/-- A JS number that is either NaN or an integer (every value `parseFileSize` returns). -/
inductive JsNum where
  | nan : JsNum
  | val (n : ℤ) : JsNum
deriving DecidableEq

/-- Character class `[\d.,]` of the size regex. -/
def isSizeNumChar (c : Char) : Bool :=
  c.isDigit || c = '.' || c = ','

/-- The unit alternatives `[KMGT]?B?` together with their multipliers
(`multipliers[unit] || 1`; the empty unit falls through to 1). -/
def sizeUnits : List (List Char × ℕ) :=
  [([], 1),
   (['B'], 1),
   (['K'], 1024), (['K', 'B'], 1024),
   (['M'], 1024 * 1024), (['M', 'B'], 1024 * 1024),
   (['G'], 1024 * 1024 * 1024), (['G', 'B'], 1024 * 1024 * 1024),
   (['T'], 1024 * 1024 * 1024 * 1024), (['T', 'B'], 1024 * 1024 * 1024 * 1024)]

/-- Anchored match of `^([\d.,]+)\s*([KMGT]?B?)$`.  The three character classes
(number, whitespace, unit letters) are pairwise disjoint, so the regex decomposition
is the maximal-munch one computed here.  Returns the number part and the multiplier. -/
def matchSizePattern (cs : List Char) : Option (List Char × ℕ) :=
  let num := cs.takeWhile isSizeNumChar
  let rest := cs.dropWhile isSizeNumChar
  let unit := rest.dropWhile isJsSpace
  if num.isEmpty then none
  else
    match (sizeUnits.find? (fun u => u.1 = unit)) with
    | some u => some (num, u.2)
    | none => none

/-- Value of a digit run. -/
def digitsToNat (ds : List Char) : ℕ :=
  ds.foldl (fun a c => 10 * a + (c.toNat - ('0').toNat)) 0

/-- JS `parseFloat` restricted to the inputs it receives here (runs of digits, dots and
commas, hence non-negative): parses the longest leading `\d+(\.\d*)?|\.\d+`, `none` for
NaN.  The exact decimal value is encoded as a mantissa/scale pair `(m, k)` denoting
`m / 10^k`.  (JS computes in binary floating point; on the decimal literals exercised by
the spec the value is exact, and the model uses the exact value.) -/
def parseFloatDec (cs : List Char) : Option (ℕ × ℕ) :=
  let ip := cs.takeWhile Char.isDigit
  let rest := cs.dropWhile Char.isDigit
  match rest with
  | '.' :: rest2 =>
    let fp := rest2.takeWhile Char.isDigit
    if ip.isEmpty && fp.isEmpty then none
    else some (digitsToNat ip * 10 ^ fp.length + digitsToNat fp, fp.length)
  | _ => if ip.isEmpty then none else some (digitsToNat ip, 0)

/-- `number.replace(',', '')`: removes only the first comma. -/
def replaceFirstComma : List Char → List Char
  | [] => []
  | c :: cs => if c = ',' then cs else c :: replaceFirstComma cs

/-- helpers.js `parseFileSize`: empty/missing input gives 0; non-matching input gives 0;
a matching input is `Math.floor(parseFloat(number without first comma) * multiplier)`,
which is NaN when `parseFloat` fails (e.g. on ".").  `Math.floor` of the non-negative
value `(m / 10^k) * mult` is natural-number division `m * mult / 10^k`. -/
def parseFileSize (sizeStr : String) : JsNum :=
  if sizeStr = "" then .val 0
  else
    let clean := trimChars (sizeStr.toList.map Char.toUpper)
    match matchSizePattern clean with
    | none => .val 0
    | some nm =>
      match parseFloatDec (replaceFirstComma nm.1) with
      | none => .nan
      | some md => .val ((md.1 * nm.2) / 10 ^ md.2 : ℕ)

/-! ### helpers.js : extractInfoHash -/

/-- Character class `[a-fA-F0-9]`. -/
def isHexChar (c : Char) : Bool :=
  c.isDigit || (('a') ≤ c && c ≤ ('f')) || (('A') ≤ c && c ≤ ('F'))

/-- The `([a-fA-F0-9]{40})` part of the regex at a given position: the next 40
characters must exist and all be hex (a longer hex run simply matches its first 40). -/
def goodHash (rest : List Char) : Bool :=
  (rest.take 40).length = 40 && (rest.take 40).all isHexChar

/-- One position of the regex `/btih:([a-fA-F0-9]{40})/i`: case-insensitive literal
`btih:` followed by exactly 40 hex characters. -/
def btihMatchAt (cs : List Char) : Option (List Char) :=
  match cs with
  | b :: t :: i :: h :: c :: rest =>
    if (b = 'b' || b = 'B') && (t = 't' || t = 'T') && (i = 'i' || i = 'I')
        && (h = 'h' || h = 'H') && c = ':' then
      if goodHash rest then some (rest.take 40) else none
    else none
  | _ => none

/-- Leftmost match of the `btih` regex over the whole string. -/
def btihSearch : List Char → Option (List Char)
  | [] => none
  | c :: cs =>
    match btihMatchAt (c :: cs) with
    | some h => some h
    | none => btihSearch cs

/-- helpers.js `extractInfoHash`: `null` on a falsy argument, else the first
`btih:`-prefixed 40-hex-character run, lowercased. -/
def extractInfoHash (magnetLink : String) : Option String :=
  if magnetLink = "" then none
  else (btihSearch magnetLink.toList).map (fun h => String.mk (h.map Char.toLower))

/-! ### helpers.js : cleanText, isVideoFile -/

/-- Replace every maximal `\s+` run by a single space (the subsequent
`[\r\n\t] -> ' '` replace in `cleanText` is then a no-op, since no `\r\n\t` survive). -/
def collapseWsAux : Bool → List Char → List Char
  | _, [] => []
  | prevSpace, c :: cs =>
    if isJsSpace c then
      if prevSpace then collapseWsAux true cs else ' ' :: collapseWsAux true cs
    else c :: collapseWsAux false cs

/-- helpers.js `cleanText`: collapse whitespace runs to single spaces, then trim. -/
def cleanText (text : String) : String :=
  if text = "" then ""
  else String.mk (trimChars (collapseWsAux false text.toList))

/-- helpers.js video extension list. -/
def videoExtensions : List String :=
  [".mp4", ".avi", ".mkv", ".mov", ".wmv", ".flv", ".webm",
   ".m4v", ".mpg", ".mpeg", ".3gp", ".ogv", ".ts", ".m2ts",
   ".mp4v", ".mov", ".hevc", ".h264", ".xvid", ".divx"]

/-- `filename.substring(filename.lastIndexOf('.'))`: the suffix from the last dot;
with no dot, `lastIndexOf` is -1 and `substring(-1)` is the whole string. -/
def suffixFromLastDot (cs : List Char) : List Char :=
  if cs.contains '.' then
    '.' :: (cs.reverse.takeWhile (fun c => c ≠ '.')).reverse
  else cs

/-- helpers.js `isVideoFile`. -/
def isVideoFile (filename : String) : Bool :=
  if filename = "" then false
  else videoExtensions.contains (String.mk ((suffixFromLastDot filename.toList).map Char.toLower))

/-! ### helpers.js : extractCategory -/

/-- The ordered category keyword groups, in object-literal insertion order. -/
def categoryKeywords : List (String × List String) :=
  [("Movies", ["movie", "film", "cinema", "theatrical", "dvdrip", "bdrip", "webrip", "720p", "1080p", "4k"]),
   ("TV Shows", ["season", "episode", "series", "tv", "show", "s01", "e01", "complete"]),
   ("Documentaries", ["documentary", "docu", "document"]),
   ("Anime", ["anime", "manga", "ova", "animated"]),
   ("Software", ["software", "app", "application", "windows", "mac", "linux", "program"]),
   ("Games", ["game", "gaming", "pc game", "ps4", "xbox", "switch", "steam"]),
   ("Music", ["album", "music", "mp3", "flac", "soundtrack", "audio"]),
   ("Books", ["ebook", "book", "novel", "pdf", "epub", "mobi", "audiobook"])]

/-- helpers.js `extractCategory`: `null` on a falsy title; else the lowercased title and
lowercased tags are matched by substring against the keyword groups in order, the first
group with any keyword occurring in any of them wins; otherwise "Other". -/
def extractCategory (title : String) (tags : List String) : Option String :=
  if title = "" then none
  else
    match categoryKeywords.find? (fun p =>
        p.2.any (fun kw =>
          (jsToLower title :: tags.map jsToLower).any (fun tag => strIncludes tag kw))) with
    | some p => some p.1
    | none => some ("Other")

/-! ### URL scheme model (used by the WhatWG `new URL` checks and zod's url validator,
both external to this repository) -/

/-- Scheme characters after the leading letter: `[a-zA-Z0-9+\-.]`. -/
def isSchemeChar (c : Char) : Bool :=
  c.isAlphanum || c = '+' || c = '-' || c = '.'

/-- Model of the scheme parse performed by `new URL(url)`: the string must start with an
ASCII letter followed by scheme characters and a colon; the resulting `protocol` is the
lowercased scheme plus ":".  (The remainder of WhatWG URL parsing is not modelled; no
claim depends on it.) -/
def urlProtocol (s : String) : Option String :=
  match s.toList with
  | [] => none
  | c :: rest =>
    if c.isAlpha then
      match (c :: rest).dropWhile isSchemeChar with
      | ':' :: _ =>
        some (String.mk (((c :: rest).takeWhile isSchemeChar).map Char.toLower) ++ ":")
      | _ => none
    else none

/-- base-scraper.js `isValidTrackerUrl`: `new URL(url).protocol` must be one of the five
allowed protocols; a throwing URL parse means `false`. -/
def isValidTrackerUrl (url : String) : Bool :=
  if url = "" then false
  else
    match urlProtocol url with
    | some p => [("http:"), ("https:"), ("udp:"), ("ws:"), ("wss:")].contains p
    | none => false

/-! ### base-scraper.js : validateAndNormalizeTorrent -/

/-- A raw file entry as handed to `validateAndNormalizeTorrent` (fields may be absent). -/
structure RawFileInput where
  name : String
  path : Option String
  size : Option ℤ
  index : Option ℤ
  isVideo : Bool
deriving DecidableEq

/-- A raw tracker entry as handed to `validateAndNormalizeTorrent`. -/
structure RawTrackerInput where
  url : Option String
  isActive : Option Bool
deriving DecidableEq

/-- Raw torrent data produced by a site scraper, before normalization.  Optional string
fields model JS fields that may be missing or empty; `seeders`/`leechers` carry the
integral value seen by `parseInt` (the scrapers supply integers), `none` when absent. -/
structure RawTorrentInput where
  title : Option String
  description : Option String
  magnetLink : Option String
  infoHash : Option String
  size : Option ℤ
  seeders : Option ℤ
  leechers : Option ℤ
  categoryName : Option String
  posterUrl : Option String
  tags : List String
  files : List RawFileInput
  trackers : List RawTrackerInput
deriving DecidableEq

/-- A normalized file entry (the random `generateId()` value is not modelled). -/
structure NormalizedFile where
  name : String
  path : Option String
  size : ℤ
  index : Option ℤ
  isVideo : Bool
deriving DecidableEq

/-- A normalized tracker entry. -/
structure NormalizedTracker where
  url : String
  isActive : Bool
deriving DecidableEq

/-- A normalized torrent record (the random `id` from `generateId()` is not modelled). -/
structure NormalizedTorrent where
  title : String
  description : Option String
  magnetLink : Option String
  infoHash : Option String
  size : ℤ
  seeders : ℤ
  leechers : ℤ
  categoryName : Option String
  posterUrl : Option String
  files : List NormalizedFile
  trackers : List NormalizedTracker
deriving DecidableEq

/-- `Math.max(0, parseInt(x) || 0)` on an integral-or-absent input. -/
def normSeederCount (o : Option ℤ) : ℤ :=
  max 0 (o.getD 0)

/-- base-scraper.js `validateAndNormalizeTorrent`: rejects (returns `none`) on a falsy
title, on a cleaned title shorter than 3 characters, and on a record having neither a
magnet link nor an info hash (own or extracted from the magnet link); otherwise yields
the normalized record with filtered files and trackers. -/
def validateAndNormalizeTorrent (d : RawTorrentInput) : Option NormalizedTorrent :=
  match strTruthy d.title with
  | none => none
  | some rawTitle =>
    let title := cleanText rawTitle
    let magnetLink := strTruthy d.magnetLink
    let infoHash :=
      match strTruthy d.infoHash with
      | some h => some h
      | none =>
        match strTruthy d.magnetLink with
        | some m => extractInfoHash m
        | none => none
    if title = "" || title.length < 3 then none
    else if magnetLink = none && infoHash = none then none
    else
      some
        { title := title
          description := (strTruthy d.description).map cleanText
          magnetLink := magnetLink
          infoHash := infoHash
          size := d.size.getD 0
          seeders := normSeederCount d.seeders
          leechers := normSeederCount d.leechers
          categoryName :=
            match strTruthy d.categoryName with
            | some c => some c
            | none => extractCategory rawTitle d.tags
          posterUrl := strTruthy d.posterUrl
          files :=
            (d.files.filter (fun f => f.name ≠ "" && f.size.getD 0 > 0)).map (fun f =>
              { name := cleanText f.name
                path := strTruthy f.path
                size := f.size.getD 0
                index :=
                  match f.index with
                  | some i => if i = 0 then none else some i
                  | none => none
                isVideo := f.isVideo || isVideoFile f.name })
          trackers :=
            (d.trackers.filter (fun t =>
                strTruthy t.url ≠ none && isValidTrackerUrl (t.url.getD ""))).map (fun t =>
              { url := String.mk (trimChars (t.url.getD "").toList)
                isActive := t.isActive ≠ some false }) }

/-! ### Ingest route (app/api/ingest): zod schema model -/

/-- A raw file object inside an ingest request, before zod defaults are applied. -/
structure RawIngestFile where
  name : String
  path : Option String
  size : ℤ
  index : Option ℤ
  isVideo : Option Bool
deriving DecidableEq

/-- A raw tracker object inside an ingest request. -/
structure RawIngestTracker where
  url : String
  isActive : Option Bool
deriving DecidableEq

/-- A raw torrent object inside an ingest request (shape already JSON-object-like;
requests whose JSON does not even have this shape are covered separately by the
request-body model below). -/
structure RawIngestTorrent where
  title : String
  description : Option String
  magnetLink : Option String
  infoHash : Option String
  size : Option ℤ
  seeders : Option ℤ
  leechers : Option ℤ
  categoryName : Option String
  posterUrl : Option String
  files : Option (List RawIngestFile)
  trackers : Option (List RawIngestTracker)
deriving DecidableEq

/-- Model of zod's `z.string().url()` (external zod library): the string must parse as a
URL, modelled by a successful scheme parse. -/
def zodUrlOk (s : String) : Bool :=
  (urlProtocol s).isSome

/-- zod validation of one file object. -/
def ingestFileOk (f : RawIngestFile) : Bool :=
  1 ≤ f.name.length && 0 ≤ f.size
  && (match f.index with
      | some i => 0 ≤ i
      | none => true)

/-- zod validation of one tracker object. -/
def ingestTrackerOk (t : RawIngestTracker) : Bool :=
  zodUrlOk t.url

/-- zod validation of one torrent object (`torrentDataSchema`). -/
def ingestTorrentOk (t : RawIngestTorrent) : Bool :=
  1 ≤ t.title.length && t.title.length ≤ 500
  && (match t.magnetLink with
      | some m => zodUrlOk m
      | none => true)
  && (match t.size with
      | some n => 0 ≤ n
      | none => true)
  && (match t.seeders with
      | some n => 0 ≤ n
      | none => true)
  && (match t.leechers with
      | some n => 0 ≤ n
      | none => true)
  && (match t.posterUrl with
      | some u => zodUrlOk u
      | none => true)
  && (match t.files with
      | some fs => fs.all ingestFileOk
      | none => true)
  && (match t.trackers with
      | some ts => ts.all ingestTrackerOk
      | none => true)

/-- zod validation of the batch envelope (`batchIngestSchema`): 1 to 100 valid records. -/
def batchOk (ts : List RawIngestTorrent) : Bool :=
  1 ≤ ts.length && ts.length ≤ 100 && ts.all ingestTorrentOk

/-- One ingest file record after zod defaults (`isVideo` defaults to `false`). -/
structure IngestFileData where
  name : String
  path : Option String
  size : ℤ
  index : Option ℤ
  isVideo : Bool
deriving DecidableEq

/-- One ingest tracker record after zod defaults (`isActive` defaults to `true`). -/
structure IngestTrackerData where
  url : String
  isActive : Bool
deriving DecidableEq

/-- One ingest torrent record after zod defaults (`seeders`/`leechers` default to 0). -/
structure TorrentData where
  title : String
  description : Option String
  magnetLink : Option String
  infoHash : Option String
  size : Option ℤ
  seeders : ℤ
  leechers : ℤ
  categoryName : Option String
  posterUrl : Option String
  files : Option (List IngestFileData)
  trackers : Option (List IngestTrackerData)
deriving DecidableEq

/-- zod defaults applied to a validated raw torrent object. -/
def applyDefaults (t : RawIngestTorrent) : TorrentData :=
  { title := t.title
    description := t.description
    magnetLink := t.magnetLink
    infoHash := t.infoHash
    size := t.size
    seeders := t.seeders.getD 0
    leechers := t.leechers.getD 0
    categoryName := t.categoryName
    posterUrl := t.posterUrl
    files := t.files.map (List.map (fun f =>
      { name := f.name
        path := f.path
        size := f.size
        index := f.index
        isVideo := f.isVideo.getD false }))
    trackers := t.trackers.map (List.map (fun tr =>
      { url := tr.url
        isActive := tr.isActive.getD true })) }

/-! ### Ingest route: POST handler -/

/-- The request body as seen by the handler: `request.json()` may throw (malformed
JSON), or produce JSON that does not have the `{torrents: [...]}` object shape
(`json none`), or produce a list of torrent-shaped objects (which zod then validates). -/
inductive IngestBody where
  | malformedJson
  | json (ts : Option (List RawIngestTorrent))
deriving DecidableEq

/-- Per-record success entry pushed into `results`. -/
structure RecordResult where
  torrentId : String
  title : String
deriving DecidableEq

/-- Per-record failure entry pushed into `errors`. -/
structure RecordError where
  title : String
  error : String
deriving DecidableEq

/-- The handler's response: 401 unauthorized, 400 zod validation error, 500 internal
error, or 200 with per-record results and errors. -/
inductive IngestResponse where
  | unauthorized
  | validationError
  | internalError
  | ok (results : List RecordResult) (errors : List RecordError)
deriving DecidableEq

/-- HTTP status of a handler response. -/
def IngestResponse.status : IngestResponse → ℕ
  | .unauthorized => 401
  | .validationError => 400
  | .internalError => 500
  | .ok _ _ => 200

/-- Number of entries in `results` (`data.processed`); 0 on non-200 responses. -/
def IngestResponse.processedCount : IngestResponse → ℕ
  | .ok rs _ => rs.length
  | _ => 0

/-- Number of entries in `errors` (`data.errors`); 0 on non-200 responses. -/
def IngestResponse.errorCount : IngestResponse → ℕ
  | .ok _ es => es.length
  | _ => 0

/-- `apiKey !== ingestApiKey` is false exactly when the `x-api-key` header and the
`INGEST_API_KEY` environment value are both present and equal (a missing header is
`null`, a missing env var `undefined`, and `null !== undefined` in JS). -/
def authOk (envKey reqKey : Option String) : Bool :=
  match reqKey, envKey with
  | some a, some b => a = b
  | _, _ => false

/-- The per-record loop: each record is processed inside its own try/catch; a success
appends to `results`, a thrown error appends to `errors`, and processing always
continues with the next record.  The per-record processor is a parameter standing for
`processTorrentData`, whose database calls may throw. -/
def processLoop (process : TorrentData → Except String String) :
    List TorrentData → List RecordResult × List RecordError
  | [] => ([], [])
  | t :: ts =>
    let rest := processLoop process ts
    match process t with
    | .ok tid => ({ torrentId := tid, title := t.title } :: rest.1, rest.2)
    | .error e => (rest.1, { title := t.title, error := e } :: rest.2)

/-- The ingest `POST` handler: 401 on an API-key mismatch; 500 when `request.json()`
throws; 400 when zod rejects the envelope; otherwise 200 carrying the per-record
results and errors from the processing loop. -/
def ingestPOST (envKey reqKey : Option String) (body : IngestBody)
    (process : TorrentData → Except String String) : IngestResponse :=
  if authOk envKey reqKey = false then .unauthorized
  else
    match body with
    | .malformedJson => .internalError
    | .json none => .validationError
    | .json (some ts) =>
      if batchOk ts then
        let pe := processLoop process (ts.map applyDefaults)
        .ok pe.1 pe.2
      else .validationError

/-- A request is rejected as a whole exactly when the body is not a schema-valid
batch envelope (unparseable JSON, wrong shape, or zod-invalid contents). -/
def envelopeBad : IngestBody → Bool
  | .malformedJson => true
  | .json none => true
  | .json (some ts) => !batchOk ts

/-! ### Ingest route: database model and processTorrentData

Database rows are modelled as lists of records; the random `crypto.randomUUID()` values
are modelled by a fresh-id counter `nextId` (uuids are opaque fresh identifiers; only
freshness and equality matter to the code). -/

/-- `[a-z0-9]` (the characters a slug keeps). -/
def isSlugChar (c : Char) : Bool :=
  c.isLower || c.isDigit

/-- Collapse every maximal run of non-`[a-z0-9]` characters into a single dash
(`replace(/[^a-z0-9]+/g, '-')` on an already-lowercased string). -/
def slugCollapseAux : Bool → List Char → List Char
  | _, [] => []
  | prev, c :: cs =>
    if isSlugChar c then c :: slugCollapseAux false cs
    else if prev then slugCollapseAux true cs
    else '-' :: slugCollapseAux true cs

/-- `replace(/(^-|-$)/g, '')`: removes one leading and one trailing dash (after the
collapse, at most one of each exists). -/
def stripEdgeDashes (cs : List Char) : List Char :=
  let a := match cs with
    | '-' :: r => r
    | l => l
  match a.reverse with
  | '-' :: r => r.reverse
  | _ => a

/-- The slug computation of `getOrCreateCategory`. -/
def slugify (name : String) : String :=
  String.mk (stripEdgeDashes (slugCollapseAux false (jsToLower name).toList))

/-- SQL `ILIKE` on a pattern without wildcard characters: case-insensitive equality
(the route passes plain category names). -/
def ilikeEq (a b : String) : Bool :=
  jsToLower a = jsToLower b

/-- A row of the `category` table. -/
structure CategoryRow where
  id : ℕ
  name : String
  slug : String
  description : String
deriving DecidableEq

/-- A row of the `torrent` table. -/
structure TorrentRow where
  id : ℕ
  title : String
  description : Option String
  magnetLink : String
  infoHash : Option String
  size : Option ℤ
  seeders : ℤ
  leechers : ℤ
  categoryId : Option ℕ
  posterUrl : Option String
  isActive : Bool
  updatedAt : Option ℕ
deriving DecidableEq

/-- A row of the `torrentFile` table. -/
structure TorrentFileRow where
  id : ℕ
  torrentId : ℕ
  name : String
  path : Option String
  size : ℤ
  index : ℤ
  isVideo : Bool
deriving DecidableEq

/-- A row of the `torrentTracker` table. -/
structure TorrentTrackerRow where
  id : ℕ
  torrentId : ℕ
  url : String
  isActive : Bool
deriving DecidableEq

/-- The database state seen by the ingest route. -/
structure DBState where
  torrents : List TorrentRow
  categories : List CategoryRow
  torrentFiles : List TorrentFileRow
  torrentTrackers : List TorrentTrackerRow
  nextId : ℕ
deriving DecidableEq

/-- The ingest route's own `isVideoFile` (a shorter extension list than helpers.js). -/
def ingestVideoExtensions : List String :=
  [".mp4", ".avi", ".mkv", ".mov", ".wmv", ".flv", ".webm",
   ".m4v", ".mpg", ".mpeg", ".3gp", ".ogv", ".ts", ".m2ts"]

/-- part_016 `isVideoFile` (route-local copy). -/
def ingestIsVideoFile (filename : String) : Bool :=
  ingestVideoExtensions.contains
    (String.mk ((suffixFromLastDot filename.toList).map Char.toLower))

/-- part_016 `getOrCreateCategory`: find by case-insensitive name, else insert a fresh
category whose slug is the slugified name, falling back to a fresh identifier when the
slug is empty; returns the found or inserted row. -/
def getOrCreateCategory (categoryName : String) (st : DBState) :
    Option CategoryRow × DBState :=
  if categoryName = "" then (none, st)
  else
    match st.categories.find? (fun c => ilikeEq c.name categoryName) with
    | some c => (some c, st)
    | none =>
      let cid := st.nextId
      let slug0 := slugify categoryName
      let newCat : CategoryRow :=
        { id := cid
          name := categoryName
          slug := if slug0 = "" then ("slug-") ++ toString cid else slug0
          description := ("Category for ") ++ categoryName ++ (" torrents") }
      (some newCat, { st with categories := st.categories ++ [newCat], nextId := cid + 1 })

/-- The existence check of `processTorrentData`: look up by `infoHash` when the record
has a (truthy) one, else by `magnetLink` when it has one, else no match; `.limit(1)`
yields the first matching row. -/
def findExistingTorrent (d : TorrentData) (torrents : List TorrentRow) :
    Option TorrentRow :=
  match strTruthy d.infoHash with
  | some ih => torrents.find? (fun t => t.infoHash = some ih)
  | none =>
    match strTruthy d.magnetLink with
    | some ml => torrents.find? (fun t => t.magnetLink = ml)
    | none => none

/-- The category resolution of `processTorrentData`
(`torrentData.categoryName ? (await getOrCreateCategory(...))?.id : null`). -/
def categoryStep (d : TorrentData) (st : DBState) : Option CategoryRow × DBState :=
  match strTruthy d.categoryName with
  | some cn => getOrCreateCategory cn st
  | none => (none, st)

/-- The file-replacement step of `processTorrentData` (lines 123-140): when files are
provided, delete this torrent's file rows and insert the new ones with fresh ids;
`index` falls back to the list position (`file.index ?? index`). -/
def filesStep (d : TorrentData) (torrentId : ℕ) (st : DBState) : DBState :=
  match d.files with
  | some fs =>
    if 0 < fs.length then
      { st with
        torrentFiles :=
          st.torrentFiles.filter (fun f => f.torrentId ≠ torrentId)
          ++ fs.enum.map (fun p =>
            { id := st.nextId + p.1
              torrentId := torrentId
              name := p.2.name
              path := p.2.path
              size := p.2.size
              index := p.2.index.getD (p.1 : ℤ)
              isVideo := p.2.isVideo || ingestIsVideoFile p.2.name })
        nextId := st.nextId + fs.length }
    else st
  | none => st

/-- The tracker-replacement step of `processTorrentData` (lines 142-156). -/
def trackersStep (d : TorrentData) (torrentId : ℕ) (st : DBState) : DBState :=
  match d.trackers with
  | some trs =>
    if 0 < trs.length then
      { st with
        torrentTrackers :=
          st.torrentTrackers.filter (fun r => r.torrentId ≠ torrentId)
          ++ trs.enum.map (fun p =>
            { id := st.nextId + p.1
              torrentId := torrentId
              url := p.2.url
              isActive := p.2.isActive })
        nextId := st.nextId + trs.length }
    else st
  | none => st

/-- part_016 `processTorrentData` (lines 75-159): resolve the category, look up an
existing torrent by infoHash-else-magnetLink, update it in place under its id (setting
`updatedAt` to now) or insert a fresh row, then replace the torrent's files and
trackers when provided.  Returns the torrent id and the new database state. -/
def processTorrentData (d : TorrentData) (now : ℕ) (st : DBState) : ℕ × DBState :=
  let catStep := categoryStep d st
  let st1 := catStep.2
  let categoryId := catStep.1.map (fun c => c.id)
  let existing := findExistingTorrent d st1.torrents
  let torrentId :=
    match existing with
    | some t => t.id
    | none => st1.nextId
  let st2 :=
    match existing with
    | some _ => st1
    | none => { st1 with nextId := st1.nextId + 1 }
  let row : TorrentRow :=
    { id := torrentId
      title := d.title
      description := d.description
      magnetLink := d.magnetLink.getD ""
      infoHash := d.infoHash
      size := d.size
      seeders := d.seeders
      leechers := d.leechers
      categoryId := categoryId
      posterUrl := d.posterUrl
      isActive := true
      updatedAt := none }
  let st3 :=
    match existing with
    | some _ =>
      { st2 with
        torrents := st2.torrents.map (fun t =>
          if t.id = torrentId then { row with updatedAt := some now } else t) }
    | none => { st2 with torrents := st2.torrents ++ [row] }
  let st4 := filesStep d torrentId st3
  let st5 := trackersStep d torrentId st4
  (torrentId, st5)

/-! ### http-client.js : getHtml retry loop -/

/-- The outcome of one `fetch` attempt: a thrown network error, or a response with a
status, status text, content-type header (empty models a missing header, via `|| ''`)
and body text. -/
inductive FetchOutcome where
  | netError (msg : String)
  | resp (status : ℕ) (statusText : String) (contentType : String) (body : String)
deriving DecidableEq

/-- `Response.ok`: status in the inclusive range 200-299. -/
def respOk (status : ℕ) : Bool :=
  200 ≤ status && status ≤ 299

/-- The body of one `getHtml` attempt: `!response.ok` throws `HTTP status: statusText`;
a content-type not containing "text/html" throws `Invalid content type: ...`; otherwise
the HTML body is returned.  Every failure class is an ordinary thrown error — there is
no transient/permanent distinction anywhere in the loop. -/
def getHtmlAttempt (o : FetchOutcome) : Except String String :=
  match o with
  | .netError m => .error m
  | .resp status statusText contentType body =>
    if respOk status = false then
      .error (("HTTP ") ++ toString status ++ (": ") ++ statusText)
    else if strIncludes contentType ("text/html") = false then
      .error (("Invalid content type: ") ++ contentType)
    else .ok body

/-- Trace of a retrying loop: the final result (the value returned, or the error thrown
after the loop), the number of attempts performed, and the backoff waits (in ms)
performed between consecutive attempts. -/
structure RetryTrace where
  result : Except String String
  attempts : ℕ
  waits : List ℚ

/-- The `getHtml` loop from attempt `i` with `rem` iterations left: a success returns
immediately; a failure is remembered as `lastError` and, when iterations remain, is
preceded by a `2^i * 1000` ms backoff before the next attempt; when none remain the
last error is thrown.  (`rem = 0` corresponds to `retries = 0`, where the loop body
never runs and the JS function throws the undefined `lastError`.) -/
def getHtmlLoop (outcomes : ℕ → FetchOutcome) (i : ℕ) : ℕ → RetryTrace
  | 0 => { result := .error (("no attempt")), attempts := 0, waits := [] }
  | rem + 1 =>
    match getHtmlAttempt (outcomes i) with
    | .ok body => { result := .ok body, attempts := 1, waits := [] }
    | .error e =>
      if rem = 0 then { result := .error e, attempts := 1, waits := [] }
      else
        let r := getHtmlLoop outcomes (i + 1) rem
        { result := r.result, attempts := r.attempts + 1, waits := (2 ^ i * 1000 : ℚ) :: r.waits }

/-- http-client.js `getHtml` with its attempt outcomes supplied as an oracle
(`outcomes i` is what the `i`-th `fetch` does); `retries` defaults to 3. -/
def getHtml (outcomes : ℕ → FetchOutcome) (retries : ℕ) : RetryTrace :=
  getHtmlLoop outcomes 0 retries

/-! ### helpers.js : retry with exponential backoff -/

/-- The helpers.js `retry` loop from attempt `i` with `rem` iterations left: the wait
between attempts is `baseDelay * 2^i + jitter i`, where `jitter i` models the
`Math.random() * 1000` term of the `i`-th failed attempt. -/
def retryLoop (fn : ℕ → Except String String) (jitter : ℕ → ℚ) (baseDelay : ℚ)
    (i : ℕ) : ℕ → RetryTrace
  | 0 => { result := .error (("no attempt")), attempts := 0, waits := [] }
  | rem + 1 =>
    match fn i with
    | .ok a => { result := .ok a, attempts := 1, waits := [] }
    | .error e =>
      if rem = 0 then { result := .error e, attempts := 1, waits := [] }
      else
        let r := retryLoop fn jitter baseDelay (i + 1) rem
        { result := r.result, attempts := r.attempts + 1,
          waits := (baseDelay * 2 ^ i + jitter i) :: r.waits }

/-- helpers.js `retry(fn, maxRetries, baseDelay)`: the loop runs for
`i = 0 .. maxRetries` inclusive, i.e. `maxRetries + 1` calls of `fn`; it waits only
while `i < maxRetries`; on exhaustion it throws the error of the last attempt
(`lastError`).  Defaults: `maxRetries = 3`, `baseDelay = 1000`. -/
def retry (fn : ℕ → Except String String) (jitter : ℕ → ℚ) (maxRetries : ℕ)
    (baseDelay : ℚ) : RetryTrace :=
  retryLoop fn jitter baseDelay 0 (maxRetries + 1)

/-! ### base-scraper.js / yts-scraper.js : per-source request delay -/

/-- The scraper configuration fields relevant to request pacing. -/
structure ScraperConfig where
  name : String
  baseUrl : String
  delay : ℕ
  maxRetries : ℕ
deriving DecidableEq

/-- The configuration the YTS scraper passes to `BaseScraper` (yts-scraper.js lines
8-21): a 2000 ms delay between requests. -/
def ytsConfig : ScraperConfig :=
  { name := ("YTS"), baseUrl := ("https://yts.mx"), delay := 2000, maxRetries := 3 }

/-- The wait `makeRequest` performs before issuing a request
(`if (this.config.delay && this.config.delay > 0) await delay(this.config.delay)`). -/
def preRequestDelay (cfg : ScraperConfig) : ℕ :=
  if 0 < cfg.delay then cfg.delay else 0

/-- Issue time (ms since dispatch start) of the `k`-th of a sequence of `makeRequest`
calls dispatched back to back to one source: each call first waits `preRequestDelay`,
then its request runs for `service k` ms before the next call starts. -/
def issueTime (cfg : ScraperConfig) (service : ℕ → ℕ) : ℕ → ℕ
  | 0 => preRequestDelay cfg
  | k + 1 => issueTime cfg service k + service k + preRequestDelay cfg

/-- Total wall-clock time for `n` sequentially dispatched `makeRequest` calls. -/
def totalElapsed (cfg : ScraperConfig) (service : ℕ → ℕ) : ℕ → ℕ
  | 0 => 0
  | k + 1 => issueTime cfg service k + service k

/-- The waiting accumulated over `n` sequential calls by the per-request delay alone. -/
def accumulatedWaiting (cfg : ScraperConfig) (n : ℕ) : ℕ :=
  n * preRequestDelay cfg

/-! ### src/lib/db/kv.ts : KVCacheClient -/

/-- One cache entry: value, absolute expiry time (ms), optional metadata. -/
structure KVEntry (V : Type) where
  value : V
  expiresAt : ℕ
  metadata : Option String
deriving DecidableEq

/-- The client state: the backing `Map` as an association list with unique keys, plus
the configured default TTL in seconds. -/
structure KVState (V : Type) where
  cache : List (String × KVEntry V)
  defaultTTL : ℕ
deriving DecidableEq

/-- `Map.get`. -/
def kvLookup (st : KVState V) (key : String) : Option (KVEntry V) :=
  (st.cache.find? (fun p => p.1 = key)).map (fun p => p.2)

/-- What `get` returns to its caller (`CacheResult`; `cachedAt` is
`expiresAt - defaultTTL seconds` and may be negative, hence ℤ). -/
structure KVGetResult (V : Type) where
  value : Option V
  metadata : Option String
  cachedAt : Option ℤ
  expiresAt : Option ℕ
deriving DecidableEq

/-- kv.ts `KVCacheClient.get` at time `now` (ms): a missing key yields `null`; an entry
with `expiresAt < now` (strictly) is deleted and yields `null`; otherwise the cached
value is returned together with its metadata and times. -/
def kvGet (st : KVState V) (key : String) (now : ℕ) : KVGetResult V × KVState V :=
  match kvLookup st key with
  | none => ({ value := none, metadata := none, cachedAt := none, expiresAt := none }, st)
  | some e =>
    if e.expiresAt < now then
      ({ value := none, metadata := none, cachedAt := none, expiresAt := none },
        { st with cache := st.cache.filter (fun p => p.1 ≠ key) })
    else
      ({ value := some e.value
         metadata := e.metadata
         cachedAt := some ((e.expiresAt : ℤ) - (st.defaultTTL : ℤ) * 1000)
         expiresAt := some e.expiresAt }, st)

/-- `options.ttl || this.defaultTTL` (a ttl of 0 is falsy and falls back). -/
def resolveTTL (ttl : Option ℕ) (dflt : ℕ) : ℕ :=
  match ttl with
  | some t => if t = 0 then dflt else t
  | none => dflt

/-- kv.ts `KVCacheClient.put` at time `now` (ms): stores the value under the key with
`expiresAt = now + ttl * 1000`, replacing any previous entry for the key. -/
def kvPut (st : KVState V) (key : String) (v : V) (ttl : Option ℕ)
    (metadata : Option String) (now : ℕ) : KVState V :=
  { st with
    cache := st.cache.filter (fun p => p.1 ≠ key)
      ++ [(key, { value := v, expiresAt := now + resolveTTL ttl st.defaultTTL * 1000,
                  metadata := metadata })] }

/-! ## Theorems -/

/-! ### C4 : parseFileSize -/

/-- C4 counterexample: the claim states that every garbage (unparseable) input yields 0,
but "." — which is not a parseable size — passes the size regex with an empty unit,
`parseFloat(".")` is NaN, and `parseFileSize` returns NaN, not 0. -/
theorem parseFileSize_dot_nan_counterexample :
    parseFileSize (".") = JsNum.nan ∧ JsNum.nan ≠ JsNum.val 0 :=
  ⟨by decide, by decide⟩

/-- C4 (amended): parseSize("1.5 GB") = 1610612736, parseSize("500 MB") = 524288000,
parseSize("") = 0, every input that fails the size pattern yields 0, and the unit
multipliers of B, KB, MB, GB, TB are the powers 1024^0 .. 1024^4; however an input that
matches the pattern but whose numeric part is not parseable (such as ".") yields NaN
rather than 0. -/
theorem parseFileSize_spec (s : String) :
    parseFileSize ("1.5 GB") = JsNum.val 1610612736 ∧
    parseFileSize ("500 MB") = JsNum.val 524288000 ∧
    parseFileSize ("") = JsNum.val 0 ∧
    (matchSizePattern (trimChars (s.toList.map Char.toUpper)) = none →
      parseFileSize s = JsNum.val 0) ∧
    parseFileSize ("2 B") = JsNum.val 2 ∧
    parseFileSize ("2 KB") = JsNum.val (2 * 1024) ∧
    parseFileSize ("2 MB") = JsNum.val (2 * 1024 ^ 2) ∧
    parseFileSize ("2 GB") = JsNum.val (2 * 1024 ^ 3) ∧
    parseFileSize ("2 TB") = JsNum.val (2 * 1024 ^ 4) := by
  refine ⟨by decide, by decide, by decide, ?_, by decide, by decide, by decide,
    by decide, by decide⟩
  intro h
  by_cases hs : s = ""
  · simp [parseFileSize, hs]
  · simp only [String.toList] at h
    simp [parseFileSize, hs, h]

/-- C4 witness: the garbage clause of `parseFileSize_spec` applied to "garbage". -/
theorem parseFileSize_spec_witness :
    parseFileSize ("garbage") = JsNum.val 0 :=
  (parseFileSize_spec ("garbage")).2.2.2.1 (by decide)

/-! ### C9 : per-source minimum request delay -/

/-- Lower bound on issue times: by the `k`-th request, `k + 1` pre-request delays of
2000 ms have elapsed. -/
theorem issueTime_yts_lower (service : ℕ → ℕ) :
    ∀ k : ℕ, 2000 * (k + 1) ≤ issueTime ytsConfig service k := by
  intro k
  induction k with
  | zero => simp [issueTime, preRequestDelay, ytsConfig]
  | succ n ih =>
    have : issueTime ytsConfig service (n + 1)
        = issueTime ytsConfig service n + service n + 2000 := rfl
    omega

/-- C9: with the YTS configuration (2000 ms minimum delay) and any per-request service
times, consecutive sequential `makeRequest` dispatches are separated by at least
2000 ms, the waiting accumulated by the per-request delay over 5 dispatches is
10000 ms ≥ 8000 ms, and the total wall-clock time of 5 sequential dispatches is at
least 8000 ms. -/
theorem yts_rate_limit_spacing :
    (∀ service : ℕ → ℕ, ∀ k : ℕ,
        issueTime ytsConfig service k + 2000 ≤ issueTime ytsConfig service (k + 1)) ∧
    accumulatedWaiting ytsConfig 5 = 10000 ∧
    8000 ≤ accumulatedWaiting ytsConfig 5 ∧
    (∀ service : ℕ → ℕ, 8000 ≤ totalElapsed ytsConfig service 5) := by
  refine ⟨?_, by decide, by decide, ?_⟩
  · intro service k
    have : issueTime ytsConfig service (k + 1)
        = issueTime ytsConfig service k + service k + 2000 := rfl
    omega
  · intro service
    have h4 := issueTime_yts_lower service 4
    have : totalElapsed ytsConfig service 5
        = issueTime ytsConfig service 4 + service 4 := rfl
    omega

/-! ### C10 : KV cache expiry -/

/-- Searching for a key among entries kept by a filter that excludes it finds nothing. -/
theorem find?_eq_none_of_filter {V : Type} (l : List (String × KVEntry V)) (key : String)
    (q : String × KVEntry V → Bool) (hq : ∀ a, q a = true → ¬ a.1 = key) :
    List.find? (fun p => p.1 = key) (List.filter q l) = none := by
  rw [List.find?_eq_none]
  intro x hx
  have := (List.mem_filter.mp hx).2
  simpa using hq x this

/-- A state whose cache was filtered to exclude `key` has no entry for `key`. -/
theorem kvLookup_filter_out {V : Type} (l : List (String × KVEntry V)) (ttlD : ℕ)
    (key : String) :
    kvLookup { cache := l.filter (fun p => p.1 ≠ key), defaultTTL := ttlD } key = none := by
  simp only [kvLookup]
  rw [find?_eq_none_of_filter]
  · rfl
  · intro a ha
    simpa using ha

/-- An empty ℕ-valued cache with the default 3600-second TTL. -/
def kvEmptyNat : KVState ℕ :=
  { cache := [], defaultTTL := 3600 }

/-- C10 counterexample: an entry stored at time 0 with a 1-second TTL expires at
1000 ms, yet a `get` performed exactly at 1000 ms — at the expiration time — still
returns the value, because the code's expiry test is strict (`expiresAt < now`).  The
claim says a get at a time at or after expiration returns null. -/
theorem kv_get_at_expiry_instant_counterexample :
    ((kvGet (kvPut kvEmptyNat ("k") 42 (some 1) none 0) ("k") 1000).1.value = some 42) ∧
    some 42 ≠ (none : Option ℕ) :=
  ⟨by decide, by decide⟩

/-- C10 (amended): a get performed strictly after the stored entry's expiration time
returns null and removes the entry; a non-null value returned by get always comes from
an entry whose expiration time has not strictly passed (`now ≤ expiresAt`); and a get
strictly after `putTime + ttl * 1000` on a freshly put key yields null and removes the
entry.  At the exact expiration instant the entry is still served. -/
theorem kv_expiry_spec :
    (∀ (V : Type) (st : KVState V) (key : String) (now : ℕ) (e : KVEntry V),
        kvLookup st key = some e → e.expiresAt < now →
        (kvGet st key now).1.value = none ∧ kvLookup (kvGet st key now).2 key = none) ∧
    (∀ (V : Type) (st : KVState V) (key : String) (now : ℕ) (v : V),
        (kvGet st key now).1.value = some v →
        ∃ e : KVEntry V, kvLookup st key = some e ∧ e.value = v ∧ now ≤ e.expiresAt) ∧
    (∀ (V : Type) (st : KVState V) (key : String) (v : V) (ttl : Option ℕ)
        (md : Option String) (t0 t1 : ℕ),
        t0 + resolveTTL ttl st.defaultTTL * 1000 < t1 →
        (kvGet (kvPut st key v ttl md t0) key t1).1.value = none ∧
        kvLookup (kvGet (kvPut st key v ttl md t0) key t1).2 key = none) := by
  refine ⟨?_, ?_, ?_⟩
  · intro V st key now e he hlt
    have h1 : kvGet st key now
        = ({ value := none, metadata := none, cachedAt := none, expiresAt := none },
           { cache := st.cache.filter (fun p => p.1 ≠ key), defaultTTL := st.defaultTTL }) := by
      simp only [kvGet, he, if_pos hlt]
    rw [h1]
    exact ⟨rfl, kvLookup_filter_out st.cache st.defaultTTL key⟩
  · intro V st key now v hv
    rcases hlook : kvLookup st key with _ | e
    · simp [kvGet, hlook] at hv
    · by_cases hlt : e.expiresAt < now
      · simp [kvGet, hlook, hlt] at hv
      · simp only [kvGet, hlook, if_neg hlt, Option.some.injEq] at hv
        exact ⟨e, rfl, hv, Nat.le_of_not_lt hlt⟩
  · intro V st key v ttl md t0 t1 ht
    have hlook : kvLookup (kvPut st key v ttl md t0) key
        = some { value := v, expiresAt := t0 + resolveTTL ttl st.defaultTTL * 1000,
                 metadata := md } := by
      simp only [kvLookup, kvPut, List.find?_append]
      rw [find?_eq_none_of_filter]
      · simp [List.find?]
      · intro a ha
        simpa using ha
    have h1 : kvGet (kvPut st key v ttl md t0) key t1
        = ({ value := none, metadata := none, cachedAt := none, expiresAt := none },
           { cache := (kvPut st key v ttl md t0).cache.filter (fun p => p.1 ≠ key),
             defaultTTL := (kvPut st key v ttl md t0).defaultTTL }) := by
      simp only [kvGet, hlook, if_pos ht]
    rw [h1]
    exact ⟨rfl, kvLookup_filter_out _ _ key⟩

/-- C10 witness: the strictly-after clause of `kv_expiry_spec` at a concrete put/get
pair (put at 0 with a 1-second TTL, get at 1001 ms). -/
theorem kv_expiry_spec_witness :
    (kvGet (kvPut kvEmptyNat ("k") 42 (some 1) none 0) ("k") 1001).1.value = none ∧
    kvLookup (kvGet (kvPut kvEmptyNat ("k") 42 (some 1) none 0) ("k") 1001).2 ("k") = none :=
  kv_expiry_spec.2.2 ℕ kvEmptyNat ("k") 42 (some 1) none 0 1001 (by decide)

/-! ### C6 : getHtml has no immediate-failure path -/

/-- C6 counterexample: a permanent-class failure (HTTP 404, which the claim says fails
immediately without retry) is retried like any other failure: with every attempt
yielding 404 the fetcher performs all 3 attempts before throwing, not 1. -/
theorem getHtml_retries_404_counterexample :
    (getHtml (fun _ => .resp 404 ("Not Found") ("text/html") ("nope")) 3).attempts = 3 ∧
    (3 : ℕ) ≠ 1 ∧
    (getHtml (fun _ => .resp 404 ("Not Found") ("text/html") ("nope")) 3).result
      = .error (("HTTP 404: Not Found")) :=
  ⟨rfl, by decide, rfl⟩

/-- A loop with fuel left performs at least one attempt. -/
theorem getHtmlLoop_attempts_pos (outcomes : ℕ → FetchOutcome) (i rem : ℕ) :
    1 ≤ (getHtmlLoop outcomes i (rem + 1)).attempts := by
  cases h : getHtmlAttempt (outcomes i) with
  | ok body => simp [getHtmlLoop, h]
  | error e =>
    cases rem with
    | zero => simp [getHtmlLoop, h]
    | succ m =>
      have hunf : getHtmlLoop outcomes i (m + 1 + 1)
          = { result := (getHtmlLoop outcomes (i + 1) (m + 1)).result,
              attempts := (getHtmlLoop outcomes (i + 1) (m + 1)).attempts + 1,
              waits := ((2 : ℚ) ^ i * 1000) :: (getHtmlLoop outcomes (i + 1) (m + 1)).waits } := by
        rw [getHtmlLoop, h]
        simp
      rw [hunf]
      simp

/-- C6 (amended): `getHtml` draws no transient/permanent distinction: any first-attempt
failure — including a 4xx status other than 429 or a bad content-type — is followed by
a second attempt whenever attempts remain, and a second-attempt success is returned. -/
theorem getHtml_no_immediate_fail :
    (∀ (outcomes : ℕ → FetchOutcome) (retries : ℕ),
        2 ≤ retries → (getHtmlAttempt (outcomes 0)).isOk = false →
        2 ≤ (getHtml outcomes retries).attempts) ∧
    (∀ (outcomes : ℕ → FetchOutcome) (retries : ℕ) (body : String),
        2 ≤ retries → (getHtmlAttempt (outcomes 0)).isOk = false →
        getHtmlAttempt (outcomes 1) = .ok body →
        (getHtml outcomes retries).result = .ok body ∧
        (getHtml outcomes retries).attempts = 2) := by
  constructor
  · intro outcomes retries h2 hfail
    obtain ⟨rem, rfl⟩ : ∃ rem, retries = rem + 2 := ⟨retries - 2, by omega⟩
    cases hx : getHtmlAttempt (outcomes 0) with
    | ok body => rw [hx] at hfail; simp [Except.isOk, Except.toBool] at hfail
    | error e =>
      have hpos := getHtmlLoop_attempts_pos outcomes 1 rem
      have hatt : (getHtml outcomes (rem + 2)).attempts
          = (getHtmlLoop outcomes 1 (rem + 1)).attempts + 1 := by
        rw [getHtml, getHtmlLoop, hx]
        simp
      omega
  · intro outcomes retries body h2 hfail hok
    obtain ⟨rem, rfl⟩ : ∃ rem, retries = rem + 2 := ⟨retries - 2, by omega⟩
    cases hx : getHtmlAttempt (outcomes 0) with
    | ok b => rw [hx] at hfail; simp [Except.isOk, Except.toBool] at hfail
    | error e =>
      have hinner : getHtmlLoop outcomes 1 (rem + 1)
          = { result := .ok body, attempts := 1, waits := [] } := by
        rw [getHtmlLoop, hok]
      have hres : (getHtml outcomes (rem + 2)).result = .ok body := by
        rw [getHtml, getHtmlLoop, hx]
        simp [hinner]
      have hatt : (getHtml outcomes (rem + 2)).attempts = 2 := by
        rw [getHtml, getHtmlLoop, hx]
        simp [hinner]
      exact ⟨hres, hatt⟩

/-- C6 witness: outcome sequence whose first attempt is a 404 and second succeeds. -/
def c6Outcomes : ℕ → FetchOutcome :=
  fun n =>
    if n = 0 then .resp 404 ("Not Found") ("text/html") ("x")
    else .resp 200 ("OK") ("text/html; charset=utf-8") ("page")

/-- C6 witness: `getHtml_no_immediate_fail` applied to a first-attempt 404 followed by
a success — the 404 is retried and the success returned on attempt 2. -/
theorem getHtml_no_immediate_fail_witness :
    (getHtml c6Outcomes 3).result = .ok ("page") ∧ (getHtml c6Outcomes 3).attempts = 2 :=
  getHtml_no_immediate_fail.2 c6Outcomes 3 ("page") (by decide) (by rfl) (by rfl)

/-! ### C7 : retry attempt count, backoff and final error -/

/-- C7 counterexample: with the default configuration (`maxRetries = 3`) and an
operation failing on every attempt, helpers.js `retry` calls the operation 4 times —
one initial call plus 3 retries — not 3. -/
theorem retry_four_attempts_counterexample :
    (retry (fun i => .error (("fail-") ++ toString i)) (fun _ => 0) 3 1000).attempts = 4 ∧
    (4 : ℕ) ≠ 3 ∧
    (retry (fun i => .error (("fail-") ++ toString i)) (fun _ => 0) 3 1000).result
      = .error (("fail-3")) :=
  ⟨rfl, by decide, rfl⟩

/-- Behaviour of the helper retry loop when every attempt in its window fails: all the
fuel is used, the final error is the last attempt's, and the waits follow the
exponential schedule from the starting attempt index. -/
theorem retryLoop_all_fail (fn : ℕ → Except String String) (jitter : ℕ → ℚ)
    (baseDelay : ℚ) :
    ∀ rem i : ℕ, (∀ j, i ≤ j → j ≤ i + rem → (fn j).isOk = false) →
      (retryLoop fn jitter baseDelay i (rem + 1)).attempts = rem + 1 ∧
      (∀ e, fn (i + rem) = .error e →
        (retryLoop fn jitter baseDelay i (rem + 1)).result = .error e) ∧
      (retryLoop fn jitter baseDelay i (rem + 1)).waits
        = (List.range rem).map (fun k => baseDelay * 2 ^ (i + k) + jitter (i + k)) := by
  intro rem
  induction rem with
  | zero =>
    intro i hfail
    have hi := hfail i (Nat.le_refl i) (by omega)
    cases hx : fn i with
    | ok a => rw [hx] at hi; simp [Except.isOk, Except.toBool] at hi
    | error e =>
      refine ⟨?_, ?_, ?_⟩
      · simp [retryLoop, hx]
      · intro e2 he2
        rw [Nat.add_zero, hx] at he2
        simp only [Except.error.injEq] at he2
        simp [retryLoop, hx, he2]
      · simp [retryLoop, hx]
  | succ n ih =>
    intro i hfail
    have hi := hfail i (Nat.le_refl i) (by omega)
    cases hx : fn i with
    | ok a => rw [hx] at hi; simp [Except.isOk, Except.toBool] at hi
    | error e =>
      have hrest := ih (i + 1) (fun j hj1 hj2 => hfail j (by omega) (by omega))
      have hunfold : retryLoop fn jitter baseDelay i (n + 1 + 1)
          = { result := (retryLoop fn jitter baseDelay (i + 1) (n + 1)).result,
              attempts := (retryLoop fn jitter baseDelay (i + 1) (n + 1)).attempts + 1,
              waits := (baseDelay * 2 ^ i + jitter i)
                :: (retryLoop fn jitter baseDelay (i + 1) (n + 1)).waits } := by
        rw [retryLoop, hx]
        simp
      refine ⟨?_, ?_, ?_⟩
      · rw [hunfold]
        simp [hrest.1]
      · intro e2 he2
        rw [hunfold]
        have : i + (n + 1) = i + 1 + n := by omega
        rw [this] at he2
        simpa using hrest.2.1 e2 he2
      · rw [hunfold]
        simp only [hrest.2.2]
        rw [List.range_succ_eq_map, List.map_cons, List.map_map]
        simp only [List.cons.injEq]
        constructor
        · simp
        · simp only [List.map_inj_left, Function.comp_apply, List.mem_range,
            Nat.succ_eq_add_one]
          intro k hk
          have h1 : i + 1 + k = i + (k + 1) := by omega
          rw [h1]

/-- Matching lemma for the `getHtml` loop: all attempts failing uses all the fuel,
throws the last error, and waits `2^k * 1000` between attempts. -/
theorem getHtmlLoop_all_fail (outcomes : ℕ → FetchOutcome) :
    ∀ rem i : ℕ,
      (∀ j, i ≤ j → j ≤ i + rem → (getHtmlAttempt (outcomes j)).isOk = false) →
      (getHtmlLoop outcomes i (rem + 1)).attempts = rem + 1 ∧
      (∀ e, getHtmlAttempt (outcomes (i + rem)) = .error e →
        (getHtmlLoop outcomes i (rem + 1)).result = .error e) ∧
      (getHtmlLoop outcomes i (rem + 1)).waits
        = (List.range rem).map (fun k => ((2 : ℚ) ^ (i + k) * 1000)) := by
  intro rem
  induction rem with
  | zero =>
    intro i hfail
    have hi := hfail i (Nat.le_refl i) (by omega)
    cases hx : getHtmlAttempt (outcomes i) with
    | ok a => rw [hx] at hi; simp [Except.isOk, Except.toBool] at hi
    | error e =>
      refine ⟨?_, ?_, ?_⟩
      · simp [getHtmlLoop, hx]
      · intro e2 he2
        rw [Nat.add_zero, hx] at he2
        simp only [Except.error.injEq] at he2
        simp [getHtmlLoop, hx, he2]
      · simp [getHtmlLoop, hx]
  | succ n ih =>
    intro i hfail
    have hi := hfail i (Nat.le_refl i) (by omega)
    cases hx : getHtmlAttempt (outcomes i) with
    | ok a => rw [hx] at hi; simp [Except.isOk, Except.toBool] at hi
    | error e =>
      have hrest := ih (i + 1) (fun j hj1 hj2 => hfail j (by omega) (by omega))
      have hunfold : getHtmlLoop outcomes i (n + 1 + 1)
          = { result := (getHtmlLoop outcomes (i + 1) (n + 1)).result,
              attempts := (getHtmlLoop outcomes (i + 1) (n + 1)).attempts + 1,
              waits := ((2 : ℚ) ^ i * 1000)
                :: (getHtmlLoop outcomes (i + 1) (n + 1)).waits } := by
        rw [getHtmlLoop, hx]
        simp
      refine ⟨?_, ?_, ?_⟩
      · rw [hunfold]
        simp [hrest.1]
      · intro e2 he2
        rw [hunfold]
        have : i + (n + 1) = i + 1 + n := by omega
        rw [this] at he2
        simpa using hrest.2.1 e2 he2
      · rw [hunfold]
        simp only [hrest.2.2]
        rw [List.range_succ_eq_map, List.map_cons, List.map_map]
        simp only [List.cons.injEq]
        constructor
        · simp
        · simp only [List.map_inj_left, Function.comp_apply, List.mem_range,
            Nat.succ_eq_add_one]
          intro k hk
          have h1 : i + 1 + k = i + (k + 1) := by omega
          rw [h1]

/-- C7 (amended): an operation failing on every attempt is attempted `maxRetries + 1`
times by helpers.js `retry` (4 times at the default `maxRetries = 3`), with waits
`baseDelay * 2^k + jitter` between consecutive attempts, and the terminal error is the
last attempt's; `getHtml` performs exactly `retries` attempts (3 at its default) with
waits `2^k * 1000` and throws the last attempt's error. -/
theorem retry_exhaustion_spec :
    (∀ (fn : ℕ → Except String String) (jitter : ℕ → ℚ) (maxRetries : ℕ) (baseDelay : ℚ),
        (∀ j, j ≤ maxRetries → (fn j).isOk = false) →
        (retry fn jitter maxRetries baseDelay).attempts = maxRetries + 1 ∧
        (∀ e, fn maxRetries = .error e →
          (retry fn jitter maxRetries baseDelay).result = .error e) ∧
        (retry fn jitter maxRetries baseDelay).waits
          = (List.range maxRetries).map (fun k => baseDelay * 2 ^ k + jitter k)) ∧
    (∀ (outcomes : ℕ → FetchOutcome) (retries : ℕ),
        1 ≤ retries →
        (∀ j, j < retries → (getHtmlAttempt (outcomes j)).isOk = false) →
        (getHtml outcomes retries).attempts = retries ∧
        (∀ e, getHtmlAttempt (outcomes (retries - 1)) = .error e →
          (getHtml outcomes retries).result = .error e) ∧
        (getHtml outcomes retries).waits
          = (List.range (retries - 1)).map (fun k => ((2 : ℚ) ^ k * 1000))) := by
  constructor
  · intro fn jitter maxRetries baseDelay hfail
    have h := retryLoop_all_fail fn jitter baseDelay maxRetries 0
      (fun j hj1 hj2 => hfail j (by omega))
    refine ⟨h.1, ?_, ?_⟩
    · intro e he
      exact h.2.1 e (by simpa using he)
    · rw [retry, h.2.2]
      apply List.map_congr_left
      intro k _
      simp
  · intro outcomes retries h1 hfail
    obtain ⟨rem, rfl⟩ : ∃ rem, retries = rem + 1 := ⟨retries - 1, by omega⟩
    have h := getHtmlLoop_all_fail outcomes rem 0
      (fun j hj1 hj2 => hfail j (by omega))
    refine ⟨h.1, ?_, ?_⟩
    · intro e he
      exact h.2.1 e (by simpa using he)
    · rw [getHtml, h.2.2]
      simp

/-- C7 witness: `retry_exhaustion_spec` applied to an always-failing operation with
`maxRetries = 2`, `baseDelay = 500` and zero jitter. -/
theorem retry_exhaustion_spec_witness :
    (retry (fun _ => (.error (("boom")) : Except String String)) (fun _ => 0) 2 500).attempts = 3 ∧
    (retry (fun _ => (.error (("boom")) : Except String String)) (fun _ => 0) 2 500).result
      = .error (("boom")) ∧
    (retry (fun _ => (.error (("boom")) : Except String String)) (fun _ => 0) 2 500).waits
      = (List.range 2).map (fun k => (500 : ℚ) * 2 ^ k + 0) := by
  have h := retry_exhaustion_spec.1 (fun _ => .error (("boom"))) (fun _ => 0) 2 500
    (fun j _ => rfl)
  exact ⟨h.1, h.2.1 _ rfl, h.2.2⟩

/-! ### C2 : normalization rejects identity-less candidates -/

/-- C2: every candidate lacking both a truthy magnet link and a truthy info hash — in
which case no info hash can be derived from a magnet link either — is rejected by
`validateAndNormalizeTorrent`; it never yields a normalized record. -/
theorem validateAndNormalize_rejects_identityless (d : RawTorrentInput)
    (hm : strTruthy d.magnetLink = none) (hi : strTruthy d.infoHash = none) :
    validateAndNormalizeTorrent d = none := by
  unfold validateAndNormalizeTorrent
  cases ht : strTruthy d.title with
  | none => rfl
  | some rawTitle =>
    simp only [hm, hi]
    split
    · rfl
    · simp

/-- A candidate with a healthy title but no identity fields (its infoHash is the empty,
hence falsy, string). -/
def c2Candidate : RawTorrentInput :=
  { title := some ("A Candidate Without Identity"), description := none,
    magnetLink := none, infoHash := some (""), size := none, seeders := some 5,
    leechers := some 1, categoryName := none, posterUrl := none, tags := [],
    files := [], trackers := [] }

/-- C2 witness: `validateAndNormalize_rejects_identityless` at a concrete candidate. -/
theorem validateAndNormalize_rejects_identityless_witness :
    validateAndNormalizeTorrent c2Candidate = none :=
  validateAndNormalize_rejects_identityless c2Candidate rfl rfl

/-! ### C8 : category inference -/

/-- C8 counterexample: the claim describes inference as keyword matching against the
title only, defaulting to "Other" when no keyword matches the title; but the code also
matches the candidate's tags: with a title matching nothing and a tag "Music" the
inferred category is "Music", not "Other". -/
theorem extractCategory_tag_counterexample :
    extractCategory ("zzz") [("Music")] = some ("Music") ∧
    some ("Music") ≠ some ("Other") :=
  ⟨by rfl, by decide⟩

/-- The spec-side description of the inference: scan the ordered groups and return the
first group one of whose keywords occurs as a substring of any of the given lowercased
strings. -/
def firstMatchingGroup (strs : List String) : Option String :=
  (categoryKeywords.find? (fun p =>
      p.2.any (fun kw => strs.any (fun s => strIncludes s kw)))).map (fun p => p.1)

/-- C8 (amended): for a candidate with a non-empty title, the inferred category is the
first keyword group matching the lowercased title or any lowercased tag, defaulting to
"Other" when no group matches; with no tags this is exactly title-only matching as the
claim describes, but tags participate when present. -/
theorem extractCategory_first_group_wins :
    (∀ title : String, title ≠ "" →
        extractCategory title []
          = some ((firstMatchingGroup [jsToLower title]).getD ("Other"))) ∧
    (∀ (title : String) (tags : List String), title ≠ "" →
        extractCategory title tags
          = some ((firstMatchingGroup (jsToLower title :: tags.map jsToLower)).getD
              ("Other"))) ∧
    extractCategory ("zzzq") [] = some ("Other") := by
  have hgen : ∀ (title : String) (tags : List String), title ≠ "" →
      extractCategory title tags
        = some ((firstMatchingGroup (jsToLower title :: tags.map jsToLower)).getD
            ("Other")) := by
    intro title tags htitle
    rw [extractCategory, if_neg htitle, firstMatchingGroup]
    cases hf : categoryKeywords.find? (fun p =>
        p.2.any (fun kw =>
          (jsToLower title :: tags.map jsToLower).any (fun s => strIncludes s kw))) with
    | none => rfl
    | some p => rfl
  exact ⟨fun t ht => by simpa using hgen t [] ht, fun t tg ht => hgen t tg ht, by rfl⟩

/-- C8 witness: `extractCategory_first_group_wins` at a concrete tagless title (the
first matching group of "Some.Show.Complete.S01" is "TV Shows"). -/
theorem extractCategory_first_group_wins_witness :
    extractCategory ("Some.Show.Complete.S01") []
      = some ((firstMatchingGroup [jsToLower ("Some.Show.Complete.S01")]).getD ("Other")) :=
  extractCategory_first_group_wins.1 ("Some.Show.Complete.S01") (by decide)

/-! ### C1 : partial-batch resilience of the ingest endpoint -/

/-- C1 counterexample: with a valid API key and a request body that is not parseable
JSON, the handler returns 500 — a whole-request rejection that is neither the 400 nor
the 401 the claim allows as the only non-200 statuses. -/
theorem ingest_malformed_json_500_counterexample :
    (ingestPOST (some ("secret")) (some ("secret")) IngestBody.malformedJson
        (fun _ => .ok (("id")))).status = 500 ∧
    (500 : ℕ) ≠ 400 ∧ (500 : ℕ) ≠ 401 ∧ (500 : ℕ) ≠ 200 :=
  ⟨rfl, by decide, by decide, by decide⟩

/-- The per-record loop keeps exactly the successes in `results` and the failures in
`errors`, independently of each other. -/
theorem processLoop_counts (process : TorrentData → Except String String) :
    ∀ ts : List TorrentData,
      (processLoop process ts).1.length
        = (ts.filter (fun t => (process t).isOk)).length ∧
      (processLoop process ts).2.length
        = (ts.filter (fun t => !(process t).isOk)).length := by
  intro ts
  induction ts with
  | nil => exact ⟨rfl, rfl⟩
  | cons t ts ih =>
    cases hp : process t with
    | ok tid =>
      constructor
      · simp [processLoop, hp, List.filter_cons, Except.isOk, Except.toBool, ih.1]
      · simp [processLoop, hp, List.filter_cons, Except.isOk, Except.toBool, ih.2]
    | error e =>
      constructor
      · simp [processLoop, hp, List.filter_cons, Except.isOk, Except.toBool, ih.1]
      · simp [processLoop, hp, List.filter_cons, Except.isOk, Except.toBool, ih.2]

/-- The two filters of `processLoop_counts` partition the batch. -/
theorem filter_isOk_partition (process : TorrentData → Except String String) :
    ∀ ts : List TorrentData,
      (ts.filter (fun t => (process t).isOk)).length
        + (ts.filter (fun t => !(process t).isOk)).length = ts.length := by
  intro ts
  induction ts with
  | nil => rfl
  | cons t ts ih =>
    cases hp : (process t).isOk with
    | true =>
      simp [List.filter_cons, hp]
      omega
    | false =>
      simp [List.filter_cons, hp]
      omega

/-- A simple schema-valid ingest record with the given title. -/
def sampleIngestTorrent (title : String) : RawIngestTorrent :=
  { title := title, description := none, magnetLink := none,
    infoHash := some ("abcdef0123456789abcdef0123456789abcdef01"), size := none,
    seeders := none, leechers := none, categoryName := none, posterUrl := none,
    files := none, trackers := none }

/-- A batch of 10 valid records. -/
def ingestBatchTen : List RawIngestTorrent :=
  (List.range 10).map (fun i => sampleIngestTorrent (("record-") ++ toString i))

/-- A downstream processor that fails on exactly one of the ten records. -/
def ingestProcessTen : TorrentData → Except String String :=
  fun t =>
    if t.title = ("record-7") then .error (("downstream validation failed"))
    else .ok (("torrent-id"))

/-- C1 (amended): the ingest endpoint rejects the whole request exactly on auth failure
(401), schema-invalid envelope (400), or unparseable JSON body (500); once the envelope
is accepted, the response is 200 and the failure of any record never aborts the batch:
the results and errors lists partition the batch by per-record outcome, and a batch of
10 records with exactly 1 failing yields 9 accepted results and 1 reported error. -/
theorem ingest_partial_batch_resilience :
    (∀ (ek rk : Option String) (body : IngestBody)
        (process : TorrentData → Except String String),
        (ingestPOST ek rk body process).status ≠ 200
          ↔ (authOk ek rk = false ∨ envelopeBad body = true)) ∧
    (∀ (ek rk : Option String) (body : IngestBody)
        (process : TorrentData → Except String String),
        authOk ek rk = false → (ingestPOST ek rk body process).status = 401) ∧
    (∀ (ek rk : Option String) (ts : List RawIngestTorrent)
        (process : TorrentData → Except String String),
        authOk ek rk = true → batchOk ts = false →
        (ingestPOST ek rk (.json (some ts)) process).status = 400) ∧
    (∀ (ek rk : Option String) (process : TorrentData → Except String String),
        authOk ek rk = true →
        (ingestPOST ek rk .malformedJson process).status = 500) ∧
    (∀ (ek rk : Option String) (ts : List RawIngestTorrent)
        (process : TorrentData → Except String String),
        authOk ek rk = true → batchOk ts = true →
        (ingestPOST ek rk (.json (some ts)) process).status = 200 ∧
        (ingestPOST ek rk (.json (some ts)) process).processedCount
          = ((ts.map applyDefaults).filter (fun t => (process t).isOk)).length ∧
        (ingestPOST ek rk (.json (some ts)) process).errorCount
          = ((ts.map applyDefaults).filter (fun t => !(process t).isOk)).length ∧
        (ingestPOST ek rk (.json (some ts)) process).processedCount
          + (ingestPOST ek rk (.json (some ts)) process).errorCount = ts.length) ∧
    ((ingestPOST (some ("secret")) (some ("secret")) (.json (some ingestBatchTen))
        ingestProcessTen).status = 200 ∧
     (ingestPOST (some ("secret")) (some ("secret")) (.json (some ingestBatchTen))
        ingestProcessTen).processedCount = 9 ∧
     (ingestPOST (some ("secret")) (some ("secret")) (.json (some ingestBatchTen))
        ingestProcessTen).errorCount = 1) := by
  have hok : ∀ (ek rk : Option String) (ts : List RawIngestTorrent)
      (process : TorrentData → Except String String),
      authOk ek rk = true → batchOk ts = true →
      ingestPOST ek rk (.json (some ts)) process
        = .ok (processLoop process (ts.map applyDefaults)).1
            (processLoop process (ts.map applyDefaults)).2 := by
    intro ek rk ts process ha hb
    simp [ingestPOST, ha, hb]
  refine ⟨?_, ?_, ?_, ?_, ?_, ?_⟩
  · intro ek rk body process
    cases ha : authOk ek rk with
    | false => simp [ingestPOST, ha, IngestResponse.status]
    | true =>
      cases body with
      | malformedJson => simp [ingestPOST, ha, envelopeBad, IngestResponse.status]
      | json ts =>
        cases ts with
        | none => simp [ingestPOST, ha, envelopeBad, IngestResponse.status]
        | some l =>
          cases hb : batchOk l with
          | false => simp [ingestPOST, ha, hb, envelopeBad, IngestResponse.status]
          | true => simp [ingestPOST, ha, hb, envelopeBad, IngestResponse.status]
  · intro ek rk body process ha
    simp [ingestPOST, ha, IngestResponse.status]
  · intro ek rk ts process ha hb
    simp [ingestPOST, ha, hb, IngestResponse.status]
  · intro ek rk process ha
    simp [ingestPOST, ha, IngestResponse.status]
  · intro ek rk ts process ha hb
    rw [hok ek rk ts process ha hb]
    have hc := processLoop_counts process (ts.map applyDefaults)
    have hpart := filter_isOk_partition process (ts.map applyDefaults)
    have hlen : (ts.map applyDefaults).length = ts.length := List.length_map _ _
    refine ⟨rfl, hc.1, hc.2, ?_⟩
    simp only [IngestResponse.processedCount, IngestResponse.errorCount]
    omega
  · refine ⟨by decide, by decide, by decide⟩

/-- C1 witness: the accepted-envelope clause of `ingest_partial_batch_resilience` at a
concrete one-record batch whose record succeeds. -/
theorem ingest_partial_batch_resilience_witness :
    (ingestPOST (some ("k")) (some ("k"))
        (.json (some [sampleIngestTorrent (("only"))])) (fun _ => .ok (("id")))).status
        = 200 ∧
    (ingestPOST (some ("k")) (some ("k"))
        (.json (some [sampleIngestTorrent (("only"))])) (fun _ => .ok (("id")))).processedCount
      = (([sampleIngestTorrent (("only"))].map applyDefaults).filter
          (fun t => ((fun _ => (.ok (("id")) : Except String String)) t).isOk)).length ∧
    (ingestPOST (some ("k")) (some ("k"))
        (.json (some [sampleIngestTorrent (("only"))])) (fun _ => .ok (("id")))).errorCount
      = (([sampleIngestTorrent (("only"))].map applyDefaults).filter
          (fun t => !((fun _ => (.ok (("id")) : Except String String)) t).isOk)).length ∧
    (ingestPOST (some ("k")) (some ("k"))
        (.json (some [sampleIngestTorrent (("only"))])) (fun _ => .ok (("id")))).processedCount
      + (ingestPOST (some ("k")) (some ("k"))
          (.json (some [sampleIngestTorrent (("only"))])) (fun _ => .ok (("id")))).errorCount
      = [sampleIngestTorrent (("only"))].length :=
  ingest_partial_batch_resilience.2.2.2.2.1 (some ("k")) (some ("k"))
    [sampleIngestTorrent (("only"))] (fun _ => .ok (("id"))) (by decide) (by decide)

/-! ### C5 : upsert semantics of processTorrentData -/

/-- The category step never touches the torrent table. -/
theorem getOrCreateCategory_torrents (cn : String) (st : DBState) :
    (getOrCreateCategory cn st).2.torrents = st.torrents := by
  by_cases h : cn = ""
  · simp [getOrCreateCategory, h]
  · rw [getOrCreateCategory, if_neg h]
    cases st.categories.find? (fun c => ilikeEq c.name cn) with
    | some c => rfl
    | none => rfl

/-- The category resolution of `processTorrentData` never touches the torrent table. -/
theorem categoryStep_torrents (d : TorrentData) (st : DBState) :
    (categoryStep d st).2.torrents = st.torrents := by
  rw [categoryStep]
  cases strTruthy d.categoryName with
  | some cn => exact getOrCreateCategory_torrents cn st
  | none => rfl

/-- The file-replacement step never touches the torrent table. -/
theorem filesStep_torrents (d : TorrentData) (tid : ℕ) (st : DBState) :
    (filesStep d tid st).torrents = st.torrents := by
  rw [filesStep]
  cases d.files with
  | none => rfl
  | some fs =>
    by_cases h : 0 < fs.length
    · simp [h]
    · simp [h]

/-- The tracker-replacement step never touches the torrent table. -/
theorem trackersStep_torrents (d : TorrentData) (tid : ℕ) (st : DBState) :
    (trackersStep d tid st).torrents = st.torrents := by
  rw [trackersStep]
  cases d.trackers with
  | none => rfl
  | some trs =>
    by_cases h : 0 < trs.length
    · simp [h]
    · simp [h]

/-- C5: a record whose identity (by infoHash when present, else magnetLink) matches an
existing torrent row is processed as an update: the returned id is the existing row's
id, the torrent table keeps its size (no second entity is created), and the row under
that id now carries the record's seeders, leechers, size and title; a record matching
nothing is appended as one new row carrying the returned fresh id and those fields. -/
theorem processTorrentData_upsert (d : TorrentData) (now : ℕ) (st : DBState) :
    (∀ t0 : TorrentRow, findExistingTorrent d st.torrents = some t0 →
      (processTorrentData d now st).1 = t0.id ∧
      (processTorrentData d now st).2.torrents.length = st.torrents.length ∧
      (∀ r ∈ (processTorrentData d now st).2.torrents, r.id = t0.id →
        r.seeders = d.seeders ∧ r.leechers = d.leechers ∧ r.size = d.size ∧
        r.title = d.title)) ∧
    (findExistingTorrent d st.torrents = none →
      ∃ r : TorrentRow,
        (processTorrentData d now st).2.torrents = st.torrents ++ [r] ∧
        r.id = (processTorrentData d now st).1 ∧
        r.seeders = d.seeders ∧ r.leechers = d.leechers ∧ r.size = d.size ∧
        r.title = d.title) := by
  constructor
  · intro t0 hfind
    have hres : processTorrentData d now st
        = (t0.id,
           trackersStep d t0.id (filesStep d t0.id
             { (categoryStep d st).2 with
               torrents := st.torrents.map (fun t =>
                 if t.id = t0.id then
                   { id := t0.id
                     title := d.title
                     description := d.description
                     magnetLink := d.magnetLink.getD ""
                     infoHash := d.infoHash
                     size := d.size
                     seeders := d.seeders
                     leechers := d.leechers
                     categoryId := (categoryStep d st).1.map (fun c => c.id)
                     posterUrl := d.posterUrl
                     isActive := true
                     updatedAt := some now }
                 else t) })) := by
      rw [processTorrentData]
      simp only [categoryStep_torrents, hfind]
    rw [hres]
    refine ⟨rfl, ?_, ?_⟩
    · rw [trackersStep_torrents, filesStep_torrents]
      exact List.length_map _ _
    · intro r hr hid
      rw [trackersStep_torrents, filesStep_torrents] at hr
      rcases List.mem_map.mp hr with ⟨t, ht, hrt⟩
      by_cases hti : t.id = t0.id
      · rw [if_pos hti] at hrt
        rw [← hrt]
        exact ⟨rfl, rfl, rfl, rfl⟩
      · rw [if_neg hti] at hrt
        rw [← hrt] at hid
        exact absurd hid hti
  · intro hfind
    have hres : processTorrentData d now st
        = ((categoryStep d st).2.nextId,
           trackersStep d (categoryStep d st).2.nextId
             (filesStep d (categoryStep d st).2.nextId
               { (categoryStep d st).2 with
                 nextId := (categoryStep d st).2.nextId + 1
                 torrents := st.torrents ++
                   [{ id := (categoryStep d st).2.nextId
                      title := d.title
                      description := d.description
                      magnetLink := d.magnetLink.getD ""
                      infoHash := d.infoHash
                      size := d.size
                      seeders := d.seeders
                      leechers := d.leechers
                      categoryId := (categoryStep d st).1.map (fun c => c.id)
                      posterUrl := d.posterUrl
                      isActive := true
                      updatedAt := none }] })) := by
      rw [processTorrentData]
      simp only [categoryStep_torrents, hfind]
    rw [hres]
    refine ⟨{ id := (categoryStep d st).2.nextId
              title := d.title
              description := d.description
              magnetLink := d.magnetLink.getD ""
              infoHash := d.infoHash
              size := d.size
              seeders := d.seeders
              leechers := d.leechers
              categoryId := (categoryStep d st).1.map (fun c => c.id)
              posterUrl := d.posterUrl
              isActive := true
              updatedAt := none }, ?_, rfl, rfl, rfl, rfl, rfl⟩
    rw [trackersStep_torrents, filesStep_torrents]

/-- An existing torrent row used by the C5 witness. -/
def c5ExistingRow : TorrentRow :=
  { id := 3, title := ("Old Title"), description := none,
    magnetLink := ("magnet:?xt=urn:btih:old"), infoHash := some ("aaa111"),
    size := some 1, seeders := 1, leechers := 9, categoryId := none, posterUrl := none,
    isActive := true, updatedAt := none }

/-- A one-row database used by the C5 witness. -/
def c5Db : DBState :=
  { torrents := [c5ExistingRow], categories := [], torrentFiles := [],
    torrentTrackers := [], nextId := 10 }

/-- An incoming record whose infoHash matches the existing row. -/
def c5Incoming : TorrentData :=
  { title := ("New Title"), description := none,
    magnetLink := some ("magnet:?xt=urn:btih:new"), infoHash := some ("aaa111"),
    size := some 777, seeders := 42, leechers := 7, categoryName := none,
    posterUrl := none, files := none, trackers := none }

/-- An incoming record matching nothing in the database. -/
def c5Fresh : TorrentData :=
  { c5Incoming with infoHash := some ("bbb222") }

/-- C5 witness: `processTorrentData_upsert` at a concrete matching record (update) and
a concrete non-matching record (insert). -/
theorem processTorrentData_upsert_witness :
    ((processTorrentData c5Incoming 99 c5Db).1 = c5ExistingRow.id ∧
     (processTorrentData c5Incoming 99 c5Db).2.torrents.length = c5Db.torrents.length ∧
     (∀ r ∈ (processTorrentData c5Incoming 99 c5Db).2.torrents, r.id = c5ExistingRow.id →
       r.seeders = c5Incoming.seeders ∧ r.leechers = c5Incoming.leechers ∧
       r.size = c5Incoming.size ∧ r.title = c5Incoming.title)) ∧
    (∃ r : TorrentRow,
      (processTorrentData c5Fresh 99 c5Db).2.torrents = c5Db.torrents ++ [r] ∧
      r.id = (processTorrentData c5Fresh 99 c5Db).1 ∧
      r.seeders = c5Fresh.seeders ∧ r.leechers = c5Fresh.leechers ∧
      r.size = c5Fresh.size ∧ r.title = c5Fresh.title) :=
  ⟨(processTorrentData_upsert c5Incoming 99 c5Db).1 c5ExistingRow (by decide),
   (processTorrentData_upsert c5Fresh 99 c5Db).2 (by decide)⟩

/-! ### C3 : infoHash extraction from a magnet link -/

/-- C3 counterexample: the claim says any btih hash of length other than 40 yields
absent, but a 41-hex-character hash matches the regex on its first 40 characters: the
extraction returns that truncated hash, not `none`. -/
theorem extractInfoHash_41_counterexample :
    extractInfoHash ("magnet:?xt=urn:btih:ABCDEF0123456789ABCDEF0123456789ABCDEF012&dn=x")
      = some ("abcdef0123456789abcdef0123456789abcdef01") ∧
    some ("abcdef0123456789abcdef0123456789abcdef01") ≠ (none : Option String) :=
  ⟨by decide, by decide⟩

/-- A failed position lets the scan move one character forward. -/
theorem btihSearch_cons_of_none (c : Char) (l : List Char)
    (h : btihMatchAt (c :: l) = none) : btihSearch (c :: l) = btihSearch l := by
  simp only [btihSearch, h]

/-- A position whose first character is not `b`/`B` cannot match. -/
theorem btihMatchAt_first_not_b (a : Char) (l : List Char)
    (h1 : a ≠ 'b') (h2 : a ≠ 'B') : btihMatchAt (a :: l) = none := by
  rcases l with _ | ⟨x1, _ | ⟨x2, _ | ⟨x3, _ | ⟨x4, rest⟩⟩⟩⟩
  · rfl
  · rfl
  · rfl
  · rfl
  · simp [btihMatchAt, h1, h2]

/-- A window drawn from a colon-free list cannot match (its fifth character would have
to be the colon of `btih:`). -/
theorem btihMatchAt_no_colon (l : List Char) (h : ∀ x ∈ l, x ≠ ':') :
    btihMatchAt l = none := by
  rcases l with _ | ⟨c1, _ | ⟨c2, _ | ⟨c3, _ | ⟨c4, _ | ⟨c5, rest⟩⟩⟩⟩⟩
  · rfl
  · rfl
  · rfl
  · rfl
  · rfl
  · have h5 : c5 ≠ ':' := h c5 (by simp)
    simp [btihMatchAt, h5]

/-- The scan finds nothing in a colon-free list. -/
theorem btihSearch_no_colon (l : List Char) (h : ∀ x ∈ l, x ≠ ':') :
    btihSearch l = none := by
  induction l with
  | nil => rfl
  | cons c cs ih =>
    rw [btihSearch_cons_of_none c cs (btihMatchAt_no_colon _ h)]
    exact ih (fun x hx => h x (List.mem_cons_of_mem _ hx))

/-- The characters of the spec's canonical magnet-link construction before the hash. -/
def magnetPrefixChars : List Char :=
  ['m', 'a', 'g', 'n', 'e', 't', ':', '?', 'x', 't', '=', 'u', 'r', 'n', ':',
   'b', 't', 'i', 'h', ':']

/-- The characters after the hash in the spec's canonical magnet link. -/
def magnetSuffixChars : List Char :=
  ['&', 'd', 'n', '=', 'x']

/-- Scanning the canonical prefix: the 15 positions before its final `btih:` cannot
match (each has a concrete non-matching five-character window), so the scan reduces to
the position of `btih:`. -/
theorem btihSearch_magnet_prefix (l : List Char) :
    btihSearch (magnetPrefixChars ++ l)
      = btihSearch ('b' :: 't' :: 'i' :: 'h' :: ':' :: l) := by
  have s0 : ∀ m : List Char, btihMatchAt ('m' :: 'a' :: 'g' :: 'n' :: 'e' :: m) = none :=
    fun _ => rfl
  have s1 : ∀ m : List Char, btihMatchAt ('a' :: 'g' :: 'n' :: 'e' :: 't' :: m) = none :=
    fun _ => rfl
  have s2 : ∀ m : List Char, btihMatchAt ('g' :: 'n' :: 'e' :: 't' :: ':' :: m) = none :=
    fun _ => rfl
  have s3 : ∀ m : List Char, btihMatchAt ('n' :: 'e' :: 't' :: ':' :: '?' :: m) = none :=
    fun _ => rfl
  have s4 : ∀ m : List Char, btihMatchAt ('e' :: 't' :: ':' :: '?' :: 'x' :: m) = none :=
    fun _ => rfl
  have s5 : ∀ m : List Char, btihMatchAt ('t' :: ':' :: '?' :: 'x' :: 't' :: m) = none :=
    fun _ => rfl
  have s6 : ∀ m : List Char, btihMatchAt (':' :: '?' :: 'x' :: 't' :: '=' :: m) = none :=
    fun _ => rfl
  have s7 : ∀ m : List Char, btihMatchAt ('?' :: 'x' :: 't' :: '=' :: 'u' :: m) = none :=
    fun _ => rfl
  have s8 : ∀ m : List Char, btihMatchAt ('x' :: 't' :: '=' :: 'u' :: 'r' :: m) = none :=
    fun _ => rfl
  have s9 : ∀ m : List Char, btihMatchAt ('t' :: '=' :: 'u' :: 'r' :: 'n' :: m) = none :=
    fun _ => rfl
  have s10 : ∀ m : List Char, btihMatchAt ('=' :: 'u' :: 'r' :: 'n' :: ':' :: m) = none :=
    fun _ => rfl
  have s11 : ∀ m : List Char, btihMatchAt ('u' :: 'r' :: 'n' :: ':' :: 'b' :: m) = none :=
    fun _ => rfl
  have s12 : ∀ m : List Char, btihMatchAt ('r' :: 'n' :: ':' :: 'b' :: 't' :: m) = none :=
    fun _ => rfl
  have s13 : ∀ m : List Char, btihMatchAt ('n' :: ':' :: 'b' :: 't' :: 'i' :: m) = none :=
    fun _ => rfl
  have s14 : ∀ m : List Char, btihMatchAt (':' :: 'b' :: 't' :: 'i' :: 'h' :: m) = none :=
    fun _ => rfl
  show btihSearch ('m' :: 'a' :: 'g' :: 'n' :: 'e' :: 't' :: ':' :: '?' :: 'x' :: 't'
      :: '=' :: 'u' :: 'r' :: 'n' :: ':' :: 'b' :: 't' :: 'i' :: 'h' :: ':' :: l) = _
  rw [btihSearch_cons_of_none _ _ (s0 _), btihSearch_cons_of_none _ _ (s1 _),
      btihSearch_cons_of_none _ _ (s2 _), btihSearch_cons_of_none _ _ (s3 _),
      btihSearch_cons_of_none _ _ (s4 _), btihSearch_cons_of_none _ _ (s5 _),
      btihSearch_cons_of_none _ _ (s6 _), btihSearch_cons_of_none _ _ (s7 _),
      btihSearch_cons_of_none _ _ (s8 _), btihSearch_cons_of_none _ _ (s9 _),
      btihSearch_cons_of_none _ _ (s10 _), btihSearch_cons_of_none _ _ (s11 _),
      btihSearch_cons_of_none _ _ (s12 _), btihSearch_cons_of_none _ _ (s13 _),
      btihSearch_cons_of_none _ _ (s14 _)]

/-- At the `btih:` position the match is decided by the hash check alone; on failure
the scan continues past `t`, `i`, `h`, `:` into the rest. -/
theorem btihSearch_btih (l : List Char) :
    btihSearch ('b' :: 't' :: 'i' :: 'h' :: ':' :: l)
      = if goodHash l then some (l.take 40) else btihSearch l := by
  have hm : btihMatchAt ('b' :: 't' :: 'i' :: 'h' :: ':' :: l)
      = if goodHash l then some (l.take 40) else none := rfl
  by_cases hg : goodHash l
  · rw [if_pos hg]
    rw [if_pos hg] at hm
    simp only [btihSearch, hm]
  · rw [if_neg hg]
    rw [if_neg hg] at hm
    rw [btihSearch_cons_of_none _ _ hm,
        btihSearch_cons_of_none _ _ (btihMatchAt_first_not_b 't' _ (by decide) (by decide)),
        btihSearch_cons_of_none _ _ (btihMatchAt_first_not_b 'i' _ (by decide) (by decide)),
        btihSearch_cons_of_none _ _ (btihMatchAt_first_not_b 'h' _ (by decide) (by decide)),
        btihSearch_cons_of_none _ _ (btihMatchAt_first_not_b ':' _ (by decide) (by decide))]

/-- A hash run shorter than 40 characters followed by the canonical suffix fails the
hash check: the character `&` sits among the first 40 characters and is not hex. -/
theorem goodHash_short (H : List Char) (hlen : H.length < 40) :
    goodHash (H ++ magnetSuffixChars) = false := by
  have htake : List.take 40 (H ++ magnetSuffixChars)
      = H ++ List.take (40 - H.length) magnetSuffixChars := by
    rw [List.take_append_eq_append_take, List.take_of_length_le (Nat.le_of_lt hlen)]
  have hmem : '&' ∈ List.take 40 (H ++ magnetSuffixChars) := by
    rw [htake]
    apply List.mem_append_right
    obtain ⟨k, hk⟩ : ∃ k, 40 - H.length = k + 1 := ⟨40 - H.length - 1, by omega⟩
    rw [hk]
    simp [magnetSuffixChars]
  have hall : (List.take 40 (H ++ magnetSuffixChars)).all isHexChar = false := by
    rcases hb : (List.take 40 (H ++ magnetSuffixChars)).all isHexChar with _ | _
    · rfl
    · have := List.all_eq_true.mp hb '&' hmem
      simp [isHexChar] at this
  rw [goodHash, hall]
  simp

/-- A hash run of 40 or more characters followed by the canonical suffix passes the
hash check with exactly its first 40 characters. -/
theorem goodHash_long (H : List Char) (hhex : H.all isHexChar = true)
    (hlen : 40 ≤ H.length) :
    goodHash (H ++ magnetSuffixChars) = true ∧
    List.take 40 (H ++ magnetSuffixChars) = List.take 40 H := by
  have htake : List.take 40 (H ++ magnetSuffixChars) = List.take 40 H := by
    rw [List.take_append_eq_append_take]
    have h0 : 40 - H.length = 0 := by omega
    rw [h0]
    simp
  refine ⟨?_, htake⟩
  rw [goodHash, htake]
  have hlen40 : (List.take 40 H).length = 40 := by
    rw [List.length_take]
    omega
  have hallt : (List.take 40 H).all isHexChar = true := by
    rw [List.all_eq_true] at hhex ⊢
    intro x hx
    exact hhex x (List.take_subset _ _ hx)
  simp [hlen40, hallt]

/-- C3 (amended): for the spec's example hash the extraction returns the 40-character
hex string lowercased; for every magnet link of the canonical shape whose hash run is
shorter than 40 hex characters the extraction returns absent; but for a hash run of 40
or more hex characters the regex matches the first 40 of them (lowercased) instead of
returning absent. -/
theorem extractInfoHash_spec :
    extractInfoHash ("magnet:?xt=urn:btih:ABCDEF0123456789ABCDEF0123456789ABCDEF01&dn=x")
      = some ("abcdef0123456789abcdef0123456789abcdef01") ∧
    (∀ H : List Char, H.all isHexChar = true → H.length < 40 →
      extractInfoHash (String.mk (magnetPrefixChars ++ H ++ magnetSuffixChars)) = none) ∧
    (∀ H : List Char, H.all isHexChar = true → 40 ≤ H.length →
      extractInfoHash (String.mk (magnetPrefixChars ++ H ++ magnetSuffixChars))
        = some (String.mk ((H.take 40).map Char.toLower))) := by
  refine ⟨by decide, ?_, ?_⟩
  · intro H hhex hlen
    have hne : String.mk (magnetPrefixChars ++ H ++ magnetSuffixChars) ≠ ("") := by
      intro h
      have h2 := congrArg String.toList h
      simp [magnetPrefixChars] at h2
    rw [extractInfoHash, if_neg hne]
    show (btihSearch ((magnetPrefixChars ++ H) ++ magnetSuffixChars)).map _ = none
    rw [List.append_assoc, btihSearch_magnet_prefix, btihSearch_btih,
        if_neg (by rw [goodHash_short H hlen]; simp)]
    rw [btihSearch_no_colon]
    · rfl
    · intro x hx
      rcases List.mem_append.mp hx with hxh | hxs
      · have hx2 := List.all_eq_true.mp hhex x hxh
        intro hcolon
        rw [hcolon] at hx2
        simp [isHexChar] at hx2
      · intro hcolon
        rw [hcolon] at hxs
        simp [magnetSuffixChars] at hxs
  · intro H hhex hlen
    have hne : String.mk (magnetPrefixChars ++ H ++ magnetSuffixChars) ≠ ("") := by
      intro h
      have h2 := congrArg String.toList h
      simp [magnetPrefixChars] at h2
    rw [extractInfoHash, if_neg hne]
    show (btihSearch ((magnetPrefixChars ++ H) ++ magnetSuffixChars)).map _
        = some (String.mk ((H.take 40).map Char.toLower))
    obtain ⟨hgood, htake⟩ := goodHash_long H hhex hlen
    rw [List.append_assoc, btihSearch_magnet_prefix, btihSearch_btih, if_pos hgood,
        htake]
    rfl

/-- C3 witness: `extractInfoHash_spec` at a 39-character hash (absent) and at a
41-character hash (first 40 characters, lowercased). -/
theorem extractInfoHash_spec_witness :
    extractInfoHash (String.mk (magnetPrefixChars ++ List.replicate 39 'A'
        ++ magnetSuffixChars)) = none ∧
    extractInfoHash (String.mk (magnetPrefixChars ++ List.replicate 41 'A'
        ++ magnetSuffixChars))
      = some (String.mk (((List.replicate 41 'A').take 40).map Char.toLower)) :=
  ⟨extractInfoHash_spec.2.1 (List.replicate 39 'A') (by decide) (by decide),
   extractInfoHash_spec.2.2 (List.replicate 41 'A') (by decide) (by decide)⟩

end TorrentStreamer
